import Mathlib

/-!
Verification of the FreakSlotsBack catalog backend against its specification.

The development shallowly embeds the JavaScript source:

* `normalizeGame` from the current `sync.js` (the version that exports
  `normalizeGame`, `upsertGames`, `seedNewestPublishedGames`, `runSync`,
  i.e. the one imported by the current `server.js`);
* `runSync` (pagination loop, watermark handling) from the same file;
* `mergePinnedFirst` and the `/api/home` cache / circuit-breaker /
  in-flight-coalescing logic from `server.js`;
* the `/api/games/:id` per-id cache handler from `server.js`;
* the Telegram broadcast capture handler from `telegramBot.js`.

JavaScript dynamic values are modelled by the inductive `JSVal`; JS numbers
are modelled as exact rationals plus explicit NaN and the two infinities
(`JSNum`). Float64 rounding is not modelled: the embedded code only tests
numbers for strict equality, ordering and truthiness, and no claim depends
on rounding.
-/

/-- A JavaScript number: NaN, positive or negative infinity, or a finite
value (modelled as an exact rational; the embedded code only tests numbers
for strict equality, ordering and truthiness, so float64 rounding is
irrelevant to every claim). -/
inductive JSNum where
  | nan : JSNum
  | inf : JSNum
  | negInf : JSNum
  | fin : ℚ → JSNum
deriving DecidableEq, Repr

/-- A JavaScript primitive value as it appears in the upstream JSON records:
`undefined`, `null`, booleans, numbers, strings. -/
inductive JSVal where
  | undef : JSVal
  | jnull : JSVal
  | bool : Bool → JSVal
  | num : JSNum → JSVal
  | str : String → JSVal
deriving DecidableEq, Repr

namespace JSVal

/-- The JS truthiness rule: `undefined`, `null`, `false`, `0`, `NaN` and `""` are
falsy; everything else is truthy. -/
def truthy : JSVal → Bool
  | .undef => false
  | .jnull => false
  | .bool b => b
  | .num .nan => false
  | .num .inf => true
  | .num .negInf => true
  | .num (.fin q) => q != 0
  | .str s => s != ""

/-- The JS `a || b`: returns `a` if truthy, else `b`. -/
def jsOr (a b : JSVal) : JSVal := if a.truthy then a else b

end JSVal

/-- The JS `String(v)` coercion for the values in the model. Numeric formatting
is simplified (integer numbers print their integer, other rationals print
the Lean rational); no claim inspects the result of this coercion. -/
def jsToString : JSVal → String
  | .undef => "undefined"
  | .jnull => "null"
  | .bool true => "true"
  | .bool false => "false"
  | .num .nan => "NaN"
  | .num .inf => "Infinity"
  | .num .negInf => "-Infinity"
  | .num (.fin q) => if q.den = 1 then toString q.num else toString q
  | .str s => s

/-- The whitespace characters stripped by JS `Number(string)` coercion
(the fragment that can occur in upstream payloads). -/
def jsWhitespace (c : Char) : Bool :=
  c = ' ' || c = '\t' || c = '\n' || c = '\r'

/-- Strip leading and trailing whitespace from a character list. -/
def jsTrimList (cs : List Char) : List Char :=
  ((cs.dropWhile jsWhitespace).reverse.dropWhile jsWhitespace).reverse

/-- Split a character list on a separator character. -/
def splitOnChar (sep : Char) : List Char → List (List Char)
  | [] => [[]]
  | c :: rest =>
    match splitOnChar sep rest with
    | [] => [[]]
    | grp :: grps => if c = sep then [] :: grp :: grps else (c :: grp) :: grps

/-- Interpret a nonempty all-digit character list as a natural number. -/
def digitsToNat (cs : List Char) : Option ℕ :=
  if cs.isEmpty ∨ ¬ cs.all Char.isDigit then none
  else some (cs.foldl (fun acc c => acc * 10 + (c.toNat - 48)) 0)

/-- Value of a hexadecimal digit character, if it is one. -/
def hexDigitVal (c : Char) : Option ℕ :=
  if '0' ≤ c ∧ c ≤ '9' then some (c.toNat - 48)
  else if 'a' ≤ c ∧ c ≤ 'f' then some (c.toNat - 87)
  else if 'A' ≤ c ∧ c ≤ 'F' then some (c.toNat - 55)
  else none

/-- Accumulate digits of the given base. -/
def radixValAux (base : ℕ) : ℕ → List Char → Option ℕ
  | acc, [] => some acc
  | acc, c :: rest =>
      match hexDigitVal c with
      | some d => if d < base then radixValAux base (acc * base + d) rest else none
      | none => none

/-- Interpret a nonempty digit sequence in the given base. -/
def radixVal (base : ℕ) : List Char → Option ℕ
  | [] => none
  | cs => radixValAux base 0 cs

/-- Parse the ECMAScript `StrUnsignedDecimalLiteral` mantissa (without
`Infinity` and without the exponent part): `digits`, `digits.`,
`digits.digits` or `.digits`. Returns the digits read as an integer and
the number of fractional digits. -/
def parseMantissa (cs : List Char) : Option (ℕ × ℕ) :=
  match splitOnChar '.' cs with
  | [intPart] => (digitsToNat intPart).map (fun n => (n, 0))
  | [intPart, fracPart] =>
      if intPart.isEmpty then
        (digitsToNat fracPart).map (fun f => (f, fracPart.length))
      else if fracPart.isEmpty then
        (digitsToNat intPart).map (fun n => (n, 0))
      else
        match digitsToNat intPart, digitsToNat fracPart with
        | some n, some f => some (n * 10 ^ fracPart.length + f, fracPart.length)
        | _, _ => none
  | _ => none

/-- Parse the ECMAScript `ExponentPart` digits with their optional sign. -/
def parseExponent (cs : List Char) : Option ℤ :=
  match cs with
  | '-' :: rest => (digitsToNat rest).map (fun n => -(n : ℤ))
  | '+' :: rest => (digitsToNat rest).map (fun n => (n : ℤ))
  | _ => (digitsToNat cs).map (fun n => (n : ℤ))

/-- Exact value of a decimal literal `sgn * mant * 10 ^ (exp - fracLen)`,
built through `mkRat` so that concrete instances evaluate. -/
def decValue (sgn : ℤ) (mant fracLen : ℕ) (exp : ℤ) : ℚ :=
  let e : ℤ := exp - fracLen
  if 0 ≤ e then ((sgn * mant * 10 ^ e.toNat : ℤ) : ℚ)
  else mkRat (sgn * mant) (10 ^ (-e).toNat)

/-- Parse an ECMAScript `StrDecimalLiteral` other than `Infinity`: optional
sign, then `digits`, `digits.`, `digits.digits` or `.digits`, then an
optional `e`/`E` exponent with optional sign. -/
def parseDecimal (cs : List Char) : Option ℚ :=
  let signBody : ℤ × List Char :=
    match cs with
    | '-' :: rest => (-1, rest)
    | '+' :: rest => (1, rest)
    | _ => (1, cs)
  let body := signBody.2.map (fun c => if c = 'E' then 'e' else c)
  match splitOnChar 'e' body with
  | [mant] => (parseMantissa mant).map (fun p => decValue signBody.1 p.1 p.2 0)
  | [mant, ex] =>
      match parseMantissa mant, parseExponent ex with
      | some p, some e => some (decValue signBody.1 p.1 p.2 e)
      | _, _ => none
  | _ => none

/-- Parse an ECMAScript `NonDecimalIntegerLiteral` (`0x`/`0X` hex,
`0o`/`0O` octal, `0b`/`0B` binary; no sign allowed). -/
def parseNonDecimal (cs : List Char) : Option ℕ :=
  match cs with
  | '0' :: c :: rest =>
      if c = 'x' ∨ c = 'X' then radixVal 16 rest
      else if c = 'o' ∨ c = 'O' then radixVal 8 rest
      else if c = 'b' ∨ c = 'B' then radixVal 2 rest
      else none
  | _ => none

/-- Parse a whole (already trimmed, nonempty) `StrNumericLiteral`:
a non-decimal integer literal, a signed `Infinity`, or a signed decimal
literal; `none` means the string coerces to NaN. -/
def parseJsNumberString (cs : List Char) : Option JSNum :=
  match parseNonDecimal cs with
  | some n => some (.fin (n : ℚ))
  | none =>
      if cs = "Infinity".data ∨ cs = "+Infinity".data then some .inf
      else if cs = "-Infinity".data then some .negInf
      else (parseDecimal cs).map (fun q => .fin q)

/-- The JS `Number(v)` coercion: numbers pass through, `null` is 0, booleans
are 0/1, strings parse per the `StringNumericLiteral` grammar (a string
that trims to empty is 0, non-numeral strings are NaN), `undefined` is
NaN. -/
def jsToNumber : JSVal → JSNum
  | .undef => .nan
  | .jnull => .fin 0
  | .bool true => .fin 1
  | .bool false => .fin 0
  | .num n => n
  | .str s =>
      let t := jsTrimList s.data
      if t = [] then .fin 0
      else match parseJsNumberString t with
        | some n => n
        | none => .nan

/-- The `provider` field of a raw upstream record: either a primitive value
or an object with `name` and `title` fields (the only fields the code
reads). -/
inductive ProviderVal where
  | prim : JSVal → ProviderVal
  | obj : JSVal → JSVal → ProviderVal
deriving DecidableEq, Repr

/-- A raw upstream game record, restricted to the fields `normalizeGame`
reads. -/
structure RawGame where
  id : JSVal := .undef
  name : JSVal := .undef
  title : JSVal := .undef
  provider : ProviderVal := .prim .undef
  provider_name : JSVal := .undef
  thumb : JSVal := .undef
  thumbnail : JSVal := .undef
  rtp : JSVal := .undef
  updated_at : JSVal := .undef
  created_at : JSVal := .undef
  published : JSVal := .undef
  url : JSVal := .undef
deriving DecidableEq, Repr

/-- External collaborators of `normalizeGame`: `Date.parse` (a host builtin)
and `buildEmbedUrl` from `slotslaunch.js` (URL manipulation plus an
environment token). Both are opaque to the claims, so they are parameters
of the embedding. -/
structure NormEnv where
  dateParse : String → JSNum
  buildEmbedUrl : String → String

/-- A normalized game record, as produced by `normalizeGame`. Fields whose
JS value can be any first truthy fallback keep type `JSVal`. -/
structure GameRec where
  id : String
  name : JSVal
  provider : JSVal
  thumb : JSVal
  rtp : JSVal
  updatedAt : JSVal
  createdAt : JSVal
  updatedAtTs : ℚ
  createdAtTs : ℚ
  published : Bool
  enabled : Bool
  apiUrl : JSVal
  embedUrl : JSVal
deriving DecidableEq, Repr

/-- Expression `g.provider && (g.provider.name || g.provider.title)`: property access on
a truthy primitive yields `undefined`; a falsy primitive short-circuits to
itself; an object yields `name || title`. -/
def providerAccess : ProviderVal → JSVal
  | .prim v => if v.truthy then .undef else v
  | .obj name title => name.jsOr title

/-- Expression `v ? Date.parse(String(v)) : 0`, followed by the
`Number.isFinite(ts) ? ts : 0` guard. -/
def tsField (env : NormEnv) (v : JSVal) : ℚ :=
  let raw : JSNum := if v.truthy then env.dateParse (jsToString v) else .fin 0
  match raw with
  | .fin q => q
  | _ => 0

/-- Function `normalizeGame` from `sync.js` (current version): field-by-field
transcription of the JavaScript function. -/
def normalizeGame (env : NormEnv) (g : RawGame) : GameRec :=
  let id := jsToString g.id
  let name := (g.name.jsOr g.title).jsOr (.str "")
  let provider := (providerAccess g.provider).jsOr (g.provider_name.jsOr (.str ""))
  let thumb := (g.thumb.jsOr g.thumbnail).jsOr (.str "")
  let rtp : JSVal :=
    match g.rtp with
    | .num n => .num n
    | v => if v.truthy then .num (jsToNumber v) else .jnull
  let updatedAt := g.updated_at.jsOr .jnull
  let createdAt := g.created_at.jsOr .jnull
  let publishedRaw := g.published
  let published : Bool :=
    publishedRaw = .bool true ∨ publishedRaw = .num (.fin 1) ∨ publishedRaw = .str "1"
  let apiUrl := g.url.jsOr (.str "")
  let embedUrl : JSVal :=
    if apiUrl.truthy then .str (env.buildEmbedUrl (jsToString apiUrl)) else .str ""
  { id := id
    name := name
    provider := provider
    thumb := thumb
    rtp := rtp
    updatedAt := updatedAt
    createdAt := createdAt
    updatedAtTs := tsField env g.updated_at
    createdAtTs := tsField env g.created_at
    published := published
    enabled := published
    apiUrl := apiUrl
    embedUrl := embedUrl }

/-- A fixed trivial external environment, used for concrete evaluations. -/
def trivialNormEnv : NormEnv :=
  { dateParse := fun _ => .nan
    buildEmbedUrl := fun s => s }

/-!
## `mergePinnedFirst` (server.js)

The serve-time merge of curated pinned games with the algorithmic best
ranking. Stored docs are normalized records, so `String(g.id)` is the `id`
field itself.
-/

/-- The `for (const g of poolDocs)` loop body of `mergePinnedFirst`:
stop once `merged` has reached `limit` entries, skip pool docs whose id is
pinned, append everything else. -/
def mergeLoop (pinnedIds : List String) (limit : ℕ)
    (merged : List GameRec) : List GameRec → List GameRec
  | [] => merged
  | g :: rest =>
    if limit ≤ merged.length then merged
    else if pinnedIds.contains g.id then mergeLoop pinnedIds limit merged rest
    else mergeLoop pinnedIds limit (merged ++ [g]) rest

/-- Function `mergePinnedFirst` from `server.js`: seed `merged` with the pinned docs,
run the pool loop, and `slice(0, limit)`. -/
def mergePinnedFirst (pinnedDocs poolDocs : List GameRec) (limit : ℕ) :
    List GameRec :=
  (mergeLoop (pinnedDocs.map GameRec.id) limit pinnedDocs poolDocs).take limit

/-- A tiny concrete stored doc used in the scenario instances. -/
def mkDoc (i : String) : GameRec :=
  { id := i, name := .str i, provider := .str "", thumb := .str ""
    rtp := .jnull, updatedAt := .jnull, createdAt := .jnull
    updatedAtTs := 0, createdAtTs := 0, published := true, enabled := true
    apiUrl := .str "", embedUrl := .str "" }

/-!
## `runSync` (sync.js)

The pagination loop, its stop conditions, the chunked upserts, and the
watermark write. The upstream fetch, the per-chunk batch commit outcome and
the environment flags are parameters; the document store is threaded
explicitly as a `Store`.
-/

/-- Constant `PER_PAGE` from `sync.js`. -/
def PER_PAGE : ℕ := 150

/-- One upstream response after the
`Array.isArray(data) ? data : (data.data || data.games || [])` unwrapping:
the raw records and `meta.last_page` when it is present and a number. -/
structure Page where
  raw : List RawGame
  lastPageMeta : Option JSNum
deriving Repr

/-- The document-store state the sync engine touches: the `games`
collection (doc id to record) and the `meta/sync` watermark
(`lastUpdatedAtDate`). -/
structure Store where
  games : List (String × GameRec)
  watermark : Option String
deriving DecidableEq, Repr

/-- A single `batch.set(docRef, {...g}, {merge: true})`: replace the doc
with the same id or append a new one. -/
def writeGame (games : List (String × GameRec)) (g : GameRec) :
    List (String × GameRec) :=
  if games.any (fun p => p.1 = g.id) then
    games.map (fun p => if p.1 = g.id then (p.1, g) else p)
  else games ++ [(g.id, g)]

/-- External collaborators and environment flags of `runSync`. -/
structure SyncEnv where
  norm : NormEnv
  /-- Upstream `fetchGamesPage({page, perPage: PER_PAGE, updatedAt})`; `Except.error`
  is a thrown upstream error. -/
  fetch : ℕ → Option String → Except String Page
  /-- whether the `batch.commit()` of a given chunk succeeds. -/
  upsertOk : List GameRec → Bool
  /-- Flag `FULL_SYNC` from the environment. -/
  fullSync : Bool
  /-- Value `MAX_SYNC_PAGES` from the environment (default 1). -/
  maxSyncPages : ℕ
  /-- Flag `REBUILD_CATEGORIES` from the environment. -/
  rebuildCategories : Bool
  /-- whether `rebuildCategoriesIndex` succeeds when invoked. -/
  rebuildOk : Bool
  /-- current UTC date components for `toDateStringYYYYMMDD(new Date())`. -/
  todayY : ℕ
  todayM : ℕ
  todayD : ℕ

/-- Expression `String(x).padStart(2, "0")`. -/
def padStart2 (s : String) : String :=
  ⟨List.replicate (2 - s.length) '0' ++ s.data⟩

/-- Function `toDateStringYYYYMMDD` from `sync.js`. -/
def toDateStringYYYYMMDD (y m d : ℕ) : String :=
  toString y ++ "-" ++ padStart2 (toString m) ++ "-" ++ padStart2 (toString d)

/-- Split a list into chunks of `n` elements (`n = 250` at the call site);
the fuel argument is the list length, enough since each step consumes at
least one element. -/
def chunksOfAux (n : ℕ) : ℕ → List GameRec → List (List GameRec)
  | _, [] => []
  | 0, l => [l]
  | fuel + 1, l => l.take n :: chunksOfAux n fuel (l.drop n)

/-- The `for (let i = 0; i < games.length; i += chunkSize)` chunking of
`upsertGames`. -/
def chunksOf (n : ℕ) (l : List GameRec) : List (List GameRec) :=
  chunksOfAux n l.length l

/-- Commit the chunks one `batch.commit()` at a time; a failed commit
throws, keeping the chunks already committed (`Except.error` carries the
store as left by the successful commits). -/
def commitChunks (env : SyncEnv) :
    Store → List (List GameRec) → Except (String × Store) Store
  | st, [] => .ok st
  | st, c :: rest =>
      if env.upsertOk c then
        commitChunks env { st with games := c.foldl writeGame st.games } rest
      else .error ("storage write failed", st)

/-- Function `upsertGames` from `sync.js`: chunk size 250, sequential commits. -/
def upsertGamesE (env : SyncEnv) (gs : List GameRec) (st : Store) :
    Except (String × Store) Store :=
  commitChunks env st (chunksOf 250 gs)

/-- The JS `page >= lastPage` comparison where `lastPage` is a JS number. -/
def jsGeNat (page : ℕ) (n : JSNum) : Bool :=
  match n with
  | .nan => false
  | .inf => false
  | .negInf => true
  | .fin q => decide (q ≤ (page : ℚ))

/-- The mutable locals of the `while (true)` loop in `runSync`, plus the
threaded store and an instrumentation counter of issued page fetches. -/
structure LoopState where
  page : ℕ
  totalFetched : ℕ
  lastSeenUpdatedAt : JSVal
  lastPage : Option JSNum
  fetchCount : ℕ
  store : Store

/-- Assignment `tail = publishedOnly.length ? publishedOnly[len-1] : normalized[len-1]`
followed by `lastSeenUpdatedAt = tail?.updatedAt || lastSeenUpdatedAt`. -/
def lastSeenUpdate (publishedOnly normalized : List GameRec) (prev : JSVal) :
    JSVal :=
  let tail : Option GameRec :=
    if publishedOnly.length ≠ 0 then publishedOnly.getLast?
    else normalized.getLast?
  (match tail with
    | some t => t.updatedAt
    | none => JSVal.undef).jsOr prev

/-- The `while (true)` loop of `runSync`. The fuel only bounds the
recursion depth; the loop itself stops via its own `break` conditions
(`page > 2000` at the latest), so fuel `2001` is never exhausted. -/
def syncLoop (env : SyncEnv) (updatedAt : Option String) :
    ℕ → LoopState → Except (String × Store) LoopState
  | 0, st => .ok st
  | fuel + 1, st =>
    match env.fetch st.page updatedAt with
    | .error e => .error (e, st.store)
    | .ok pageData =>
      let st := { st with fetchCount := st.fetchCount + 1 }
      if pageData.raw.isEmpty then .ok st
      else
        let lastPage' := match pageData.lastPageMeta with
          | some n => some n
          | none => st.lastPage
        let normalized := pageData.raw.map (normalizeGame env.norm)
        let publishedOnly := normalized.filter (fun g => g.published)
        match upsertGamesE env publishedOnly st.store with
        | .error (e, committedStore) => .error (e, committedStore)
        | .ok store' =>
          let st' : LoopState :=
            { page := st.page
              totalFetched := st.totalFetched + publishedOnly.length
              lastSeenUpdatedAt :=
                lastSeenUpdate publishedOnly normalized st.lastSeenUpdatedAt
              lastPage := lastPage'
              fetchCount := st.fetchCount
              store := store' }
          if (match lastPage' with
              | some lp => jsGeNat st.page lp
              | none => decide (pageData.raw.length < PER_PAGE)) then .ok st'
          else
            let nextPage := st.page + 1
            if env.maxSyncPages < nextPage then .ok { st' with page := nextPage }
            else if 2000 < nextPage then .ok { st' with page := nextPage }
            else syncLoop env updatedAt fuel { st' with page := nextPage }

/-- What `runSync` returns on success, plus the instrumentation counter of
issued page fetches. -/
structure SyncResult where
  totalFetched : ℕ
  updatedAtUsed : Option String
  lastSeenUpdatedAt : JSVal
  lastPage : Option JSNum
  pagesFetched : ℕ
deriving DecidableEq, Repr

/-- Final store and outcome of one `runSync` invocation. -/
structure SyncOutcome where
  store : Store
  result : Except String SyncResult

/-- Function `runSync` from `sync.js`: read the watermark, run the page loop, then
(optionally) rebuild categories and persist today's date as the new
watermark. A thrown error anywhere propagates, skipping everything after
it. -/
def runSyncE (env : SyncEnv) (store0 : Store) : SyncOutcome :=
  let lastDate := store0.watermark
  let updatedAt := if env.fullSync then none else lastDate
  let init : LoopState :=
    { page := 1, totalFetched := 0, lastSeenUpdatedAt := .jnull
      lastPage := none, fetchCount := 0, store := store0 }
  match syncLoop env updatedAt 2001 init with
  | .error (e, st) => { store := st, result := .error e }
  | .ok st =>
      if env.rebuildCategories && !env.rebuildOk then
        { store := st.store, result := .error "rebuild failed" }
      else
        { store := { st.store with
            watermark :=
              some (toDateStringYYYYMMDD env.todayY env.todayM env.todayD) }
          result := .ok
            { totalFetched := st.totalFetched
              updatedAtUsed := updatedAt
              lastSeenUpdatedAt := st.lastSeenUpdatedAt
              lastPage := st.lastPage
              pagesFetched := st.fetchCount } }

/-- Number of records of a raw page that survive the published-only filter
after normalization. -/
def pubCount (nenv : NormEnv) (r : List RawGame) : ℕ :=
  ((r.map (normalizeGame nenv)).filter (fun g => g.published)).length

/-- A raw record that is published and has no other fields set. -/
def rawPub : RawGame := { published := JSVal.bool true }

/-- An upstream serving pages of 150, 150 and 10 published records with no
`last_page` metadata, then empty pages. -/
def fetchC2 : ℕ → Option String → Except String Page
  | 1, _ => .ok { raw := List.replicate 150 rawPub, lastPageMeta := none }
  | 2, _ => .ok { raw := List.replicate 150 rawPub, lastPageMeta := none }
  | 3, _ => .ok { raw := List.replicate 10 rawPub, lastPageMeta := none }
  | _, _ => .ok { raw := [], lastPageMeta := none }

/-- A sync environment over `fetchC2` with all storage writes succeeding,
no full-sync flag and no category rebuild, parametrized by the
`MAX_SYNC_PAGES` ceiling. -/
def envC2 (maxPages : ℕ) : SyncEnv :=
  { norm := trivialNormEnv
    fetch := fetchC2
    upsertOk := fun _ => true
    fullSync := false
    maxSyncPages := maxPages
    rebuildCategories := false
    rebuildOk := true
    todayY := 2026
    todayM := 10
    todayD := 11 }

/-- The empty document store. -/
def emptyStore : Store := { games := [], watermark := none }

/-!
## `/api/home` serving (server.js)

The cache / circuit-breaker / in-flight-coalescing logic of the home
endpoint. The process is single-threaded: each request handler runs
atomically up to its first `await`, so a request's synchronous prefix
(cache check, circuit check, in-flight check, starting the rebuild whose
first step issues the Firestore games query) is one atomic step
(`homeArrive`), and a rebuild's completion is another (`homeComplete`).
-/

/-- The frontend shape produced by `toClientGame`. -/
structure ClientGame where
  id : String
  name : JSVal
  provider : JSVal
  thumb : JSVal
  demoUrl : JSVal
  rtp : JSVal
deriving DecidableEq, Repr

/-- The JS `a ?? b`. -/
def nullish (a b : JSVal) : JSVal :=
  match a with
  | .undef => b
  | .jnull => b
  | v => v

/-- Function `toClientGame` from `server.js`. -/
def toClientGame (g : GameRec) : ClientGame :=
  { id := g.id
    name := g.name
    provider := g.provider
    thumb := g.thumb
    demoUrl := g.embedUrl
    rtp := nullish g.rtp .jnull }

/-- One section of the home payload (`{id, title, icon, games}`). -/
structure HomeSection where
  id : String
  title : String
  icon : String
  games : List ClientGame
deriving DecidableEq, Repr

/-- The `/api/home` response value cached in `homeCache`. -/
abbrev HomeData := List HomeSection

/-- Whether the first list is a
prefix of the second. -/
def isPrefixChars : List Char → List Char → Bool
  | [], _ => true
  | _ :: _, [] => false
  | a :: as, b :: bs => a = b && isPrefixChars as bs

/-- Builtin `String.prototype.includes`: does `needle` occur inside the list. -/
def containsSub (needle : List Char) : List Char → Bool
  | [] => needle.isEmpty
  | a :: rest => isPrefixChars needle (a :: rest) || containsSub needle rest

/-- Function `isQuotaError` from `server.js`: message contains
`RESOURCE_EXHAUSTED` or `Quota exceeded`. -/
def isQuotaError (msg : String) : Bool :=
  containsSub "RESOURCE_EXHAUSTED".data msg.data ||
    containsSub "Quota exceeded".data msg.data

/-- Constant `HOME_CACHE_TTL_MS` from `server.js`. -/
def HOME_CACHE_TTL_MS : ℕ := 10 * 60 * 1000

/-- The module-level mutable state of the home endpoint: `homeCache`
(`{ts, data}` or null), whether a `homeInFlight` promise exists, and
`homeCircuitUntil` (milliseconds). -/
structure HomeState where
  homeCache : Option (ℕ × HomeData)
  homeInFlight : Bool
  homeCircuitUntil : ℕ

/-- What a request's synchronous prefix did. -/
inductive HomeOutcome where
  | servedFresh : HomeData → HomeOutcome
  | servedCircuit : Option HomeData → HomeOutcome
  | startedRebuild : HomeOutcome
  | attached : HomeOutcome
deriving DecidableEq

/-- The stale-or-missing-cache tail of the handler prefix: circuit check
(serve stale or 503 without touching storage), else start the rebuild (one
Firestore games query issued) or attach to the one in flight. The third
component counts games-collection reads issued by this step. -/
def homeArriveStale (s : HomeState) (now : ℕ) : HomeState × HomeOutcome × ℕ :=
  if now < s.homeCircuitUntil then
    (s, .servedCircuit (s.homeCache.map Prod.snd), 0)
  else if s.homeInFlight then (s, .attached, 0)
  else ({ s with homeInFlight := true }, .startedRebuild, 1)

/-- The synchronous prefix of one `GET /api/home` request at time `now`:
fresh-cache check first, then the stale path. -/
def homeArrive (s : HomeState) (now : ℕ) : HomeState × HomeOutcome × ℕ :=
  match s.homeCache with
  | some (ts, d) =>
      if now - ts < HOME_CACHE_TTL_MS then (s, .servedFresh d, 0)
      else homeArriveStale s now
  | none => homeArriveStale s now

/-- How the in-flight rebuild promise settles. -/
inductive RebuildOutcome where
  | success : HomeData → RebuildOutcome
  | failure : String → RebuildOutcome

/-- Settlement of the in-flight rebuild at time `now`: success stores the
cache entry; failure opens the 60 s circuit iff the error is
quota-classified; both clear `homeInFlight` (the `.then`/`.catch`/
`.finally` chain). -/
def homeComplete (s : HomeState) (now : ℕ) : RebuildOutcome → HomeState
  | .success d =>
      { homeCache := some (now, d)
        homeInFlight := false
        homeCircuitUntil := s.homeCircuitUntil }
  | .failure err =>
      { homeCache := s.homeCache
        homeInFlight := false
        homeCircuitUntil :=
          if isQuotaError err then now + 60 * 1000 else s.homeCircuitUntil }

/-- A burst of request arrivals (their synchronous prefixes, in event-loop
order, with no rebuild completion in between): returns the final state, the
total games-collection reads issued, and how many requests attached to an
already-in-flight rebuild. -/
def homeArrivals (s : HomeState) : List ℕ → HomeState × ℕ × ℕ
  | [] => (s, 0, 0)
  | t :: ts =>
      let step := homeArrive s t
      let rest := homeArrivals step.1 ts
      (rest.1, step.2.2 + rest.2.1, (if step.2.1 = .attached then 1 else 0) + rest.2.2)

/-!
## `/api/games/:id` serving (server.js)

The per-id cache (`gameCache` Map) with TTL and stale fallback on quota
errors.
-/

/-- Constant `GAME_CACHE_TTL_MS` from `server.js`. -/
def GAME_CACHE_TTL_MS : ℕ := 10 * 60 * 1000

/-- Lookup `gameCache.get(id)`. -/
def lookupCache (cache : List (String × ℕ × ClientGame)) (id : String) :
    Option (ℕ × ClientGame) :=
  (cache.find? (fun p => p.1 == id)).map Prod.snd

/-- Write `gameCache.set(id, v)`: replace the entry with this key or add one. -/
def cacheSet (cache : List (String × ℕ × ClientGame)) (id : String)
    (v : ℕ × ClientGame) : List (String × ℕ × ClientGame) :=
  if cache.any (fun p => p.1 == id) then
    cache.map (fun p => if p.1 == id then (id, v) else p)
  else cache ++ [(id, v)]

/-- The HTTP outcome of one `GET /api/games/:id` request. -/
inductive GameResponse where
  | ok : ClientGame → GameResponse
  | notFound : GameResponse
  | serverError : String → GameResponse
deriving DecidableEq, Repr

/-- The Firestore read and the surrounding `try`/`catch` of the handler,
with the earlier cache lookup (`cached`) in scope for the stale fallback. -/
def gameReadPath (store : String → Except String (Option GameRec))
    (cache : List (String × ℕ × ClientGame)) (cached : Option (ℕ × ClientGame))
    (now : ℕ) (id : String) :
    List (String × ℕ × ClientGame) × GameResponse :=
  match store id with
  | .error e =>
      if isQuotaError e then
        match cached with
        | some (_, data) => (cache, .ok data)
        | none => (cache, .serverError e)
      else (cache, .serverError e)
  | .ok none => (cache, .notFound)
  | .ok (some g) =>
      let payload := toClientGame g
      (cacheSet cache id (now, payload), .ok payload)

/-- One `GET /api/games/:id` request: fresh cache hit, else the Firestore
read path. -/
def getGameById (store : String → Except String (Option GameRec))
    (cache : List (String × ℕ × ClientGame)) (now : ℕ) (id : String) :
    List (String × ℕ × ClientGame) × GameResponse :=
  match lookupCache cache id with
  | some (ts, data) =>
      if now - ts < GAME_CACHE_TTL_MS then (cache, .ok data)
      else gameReadPath store cache (some (ts, data)) now id
  | none => gameReadPath store cache none now id

/-!
## Broadcast capture (telegramBot.js)

The `bot.on("message")` handler that turns a waiting draft into a
confirming one, embedded as a transition function over the per-chat
`broadcastState` map. The echo/`sendMessage` calls are recorded as
effects (the model assumes the sends succeed; a failed echo only deletes
the draft, which no claim concerns).
-/

/-- An inbound Telegram message, restricted to the fields the handler
reads; `photo` is the list of photo-size file ids. -/
structure TgMsg where
  text : Option String := none
  caption : Option String := none
  photo : List String := []
  video : Option String := none
  video_note : Option String := none
  document : Option String := none
  audio : Option String := none
deriving DecidableEq, Repr

/-- The JS `v || null` on a string-or-undefined (empty strings are falsy). -/
def truthyStr : Option String → Option String
  | some s => if s = "" then none else some s
  | none => none

/-- Truthiness of a captured nullable-string payload field. -/
def optTruthy : Option String → Bool
  | some s => s ≠ ""
  | none => false

/-- Guard `typeof msg.text === "string" && msg.text.startsWith("/")`; a one-char
prefix test, so it is the first character being `/`. -/
def isCommandText : Option String → Bool
  | some t =>
      match t.data with
      | c :: _ => c = '/'
      | [] => false
  | none => false

/-- The broadcast payload captured from an inbound message (the
`payload` object built in the handler). -/
structure Payload where
  text : Option String
  caption : Option String
  photoFileId : Option String
  videoFileId : Option String
  videoNoteFileId : Option String
  documentFileId : Option String
  audioFileId : Option String
deriving DecidableEq, Repr

/-- Build the payload from a message, field by field as in the handler. -/
def capturePayload (m : TgMsg) : Payload :=
  { text := truthyStr m.text
    caption := truthyStr m.caption
    photoFileId := if m.photo.length ≠ 0 then m.photo.getLast? else none
    videoFileId := truthyStr m.video
    videoNoteFileId := truthyStr m.video_note
    documentFileId := truthyStr m.document
    audioFileId := truthyStr m.audio }

/-- The six media kinds in the handler's precedence order. -/
inductive MediaKind where
  | text | photo | video | videoNote | document | audio
deriving DecidableEq, Repr

/-- Whether the payload carries (a truthy value for) a given kind. -/
def kindPresent (p : Payload) : MediaKind → Bool
  | .text => optTruthy p.text
  | .photo => optTruthy p.photoFileId
  | .video => optTruthy p.videoFileId
  | .videoNote => optTruthy p.videoNoteFileId
  | .document => optTruthy p.documentFileId
  | .audio => optTruthy p.audioFileId

/-- The media kind the echo (and later the fan-out) actually uses: the
`if`/`else if` chain of the handler, first match wins. -/
def usedKind (p : Payload) : Option MediaKind :=
  if optTruthy p.text then some .text
  else if optTruthy p.photoFileId then some .photo
  else if optTruthy p.videoFileId then some .video
  else if optTruthy p.videoNoteFileId then some .videoNote
  else if optTruthy p.documentFileId then some .document
  else if optTruthy p.audioFileId then some .audio
  else none

/-- The kinds present in a payload, listed in precedence order. -/
def presentKinds (p : Payload) : List MediaKind :=
  [MediaKind.text, .photo, .video, .videoNote, .document, .audio].filter
    (kindPresent p)

/-- A per-chat draft state (`broadcastState` values). -/
inductive DraftStep where
  | waiting : DraftStep
  | confirming : Payload → DraftStep
deriving DecidableEq, Repr

/-- The `broadcastState` map, keyed by chat id. -/
def BotState := ℤ → Option DraftStep

/-- Messages the handler sends back, in order. -/
inductive BotEffect where
  | echoMedia : ℤ → MediaKind → BotEffect
  | askConfirm : ℤ → BotEffect
  | sendText : ℤ → String → BotEffect
deriving DecidableEq, Repr

/-- The `bot.on("message")` broadcast-capture handler: non-admins and chats
not in `waiting_for_message` are ignored; commands are ignored; otherwise
the state moves to `confirming` with the captured payload and the draft is
echoed with the approve/decline prompt — unless no supported kind is
present, in which case an error is sent and the draft is deleted. -/
def onMessage (admins : List ℤ) (st : BotState) (chat : ℤ) (m : TgMsg) :
    BotState × List BotEffect :=
  if ¬ admins.contains chat then (st, [])
  else
    match st chat with
    | some .waiting =>
        if isCommandText m.text then (st, [])
        else
          let p := capturePayload m
          let stConfirm : BotState :=
            fun c => if c = chat then some (.confirming p) else st c
          match usedKind p with
          | some k => (stConfirm, [.echoMedia chat k, .askConfirm chat])
          | none =>
              (fun c => if c = chat then none else stConfirm c,
                [.sendText chat
                  "Unsupported message type. Please send text, photo, video, document, or audio."])
    | _ => (st, [])

/-- C1: `published` is true exactly for raw `true`, `1`, `"1"`; `enabled`
always mirrors `published`. -/
theorem normalizeGame_published_iff (env : NormEnv) (g : RawGame) :
    ((normalizeGame env g).published = true ↔
      g.published = .bool true ∨ g.published = .num (.fin 1) ∨
        g.published = .str "1") ∧
    (normalizeGame env g).enabled = (normalizeGame env g).published := by
  constructor
  · simp [normalizeGame]
  · simp [normalizeGame]

/-- C7 counterexample: for the non-numeric string `"abc"` the code computes
`Number("abc") = NaN` and stores NaN, not `null` as the claim states. -/
theorem normalizeGame_rtp_nonNumericString_not_null :
    (normalizeGame trivialNormEnv { rtp := JSVal.str "abc" }).rtp =
      JSVal.num JSNum.nan ∧
    (normalizeGame trivialNormEnv { rtp := JSVal.str "abc" }).rtp ≠
      JSVal.jnull := by
  constructor
  · decide
  · decide

/-- C7 (amended): `rtp` passes a JS number through unchanged; a nonempty
string whose trimmed form is a `StringNumericLiteral` (decimal with
optional fraction, leading/trailing dot and exponent, hex/octal/binary, or
signed `Infinity`) is coerced to that number; a falsy non-number (absent,
`null`, `false`, empty string) yields `null`; and a nonempty string the
grammar rejects yields NaN (not `null`). -/
theorem normalizeGame_rtp_cases (env : NormEnv) (g : RawGame) :
    (∀ n, g.rtp = .num n → (normalizeGame env g).rtp = .num n) ∧
    (∀ s n, g.rtp = .str s → s ≠ "" →
      parseJsNumberString (jsTrimList s.data) = some n →
      (normalizeGame env g).rtp = .num n) ∧
    ((∀ n, g.rtp ≠ .num n) → g.rtp.truthy = false →
      (normalizeGame env g).rtp = .jnull) ∧
    (∀ s, g.rtp = .str s → s ≠ "" →
      jsTrimList s.data ≠ [] →
      parseJsNumberString (jsTrimList s.data) = none →
      (normalizeGame env g).rtp = .num .nan) := by
  refine ⟨?_, ?_, ?_, ?_⟩
  · intro n h
    simp [normalizeGame, h]
  · intro s n h hs hq
    have hne : jsTrimList s.data ≠ [] := by
      intro ht
      rw [ht] at hq
      simp [parseJsNumberString, parseNonDecimal, parseDecimal, splitOnChar,
        parseMantissa, digitsToNat] at hq
    simp [normalizeGame, h, JSVal.truthy, hs, jsToNumber, hne, hq]
  · intro hnum ht
    cases hv : g.rtp with
    | num n => exact absurd hv (hnum n)
    | undef => simp [normalizeGame, hv, JSVal.truthy]
    | jnull => simp [normalizeGame, hv, JSVal.truthy]
    | bool b =>
        rw [hv] at ht
        simp [JSVal.truthy] at ht
        simp [normalizeGame, hv, ht, JSVal.truthy]
    | str s =>
        rw [hv] at ht
        simp [JSVal.truthy] at ht
        simp [normalizeGame, hv, ht, JSVal.truthy]
  · intro s h hs hne hq
    simp [normalizeGame, h, JSVal.truthy, hs, jsToNumber, hne, hq]

/-- Witness for the amended C7 theorem: the numeric string `"96.5"` is
coerced to the rational 193/2, and the fraction-only numeral `".5"` to
1/2. -/
theorem normalizeGame_rtp_cases_witness :
    ("96.5" : String) ≠ "" ∧
    parseJsNumberString (jsTrimList ("96.5" : String).data) =
      some (JSNum.fin (mkRat 193 2)) ∧
    (normalizeGame trivialNormEnv { rtp := JSVal.str "96.5" }).rtp =
      JSVal.num (JSNum.fin (mkRat 193 2)) ∧
    (normalizeGame trivialNormEnv { rtp := JSVal.str ".5" }).rtp =
      JSVal.num (JSNum.fin (mkRat 1 2)) :=
  ⟨by decide, by decide,
    (normalizeGame_rtp_cases trivialNormEnv { rtp := JSVal.str "96.5" }).2.1
      "96.5" (JSNum.fin (mkRat 193 2)) rfl (by decide) (by decide),
    (normalizeGame_rtp_cases trivialNormEnv { rtp := JSVal.str ".5" }).2.1
      ".5" (JSNum.fin (mkRat 1 2)) rfl (by decide) (by decide)⟩

/-- Closed form of the pool loop: it appends the first `limit - |merged|`
pool docs whose ids are not pinned. -/
theorem mergeLoop_eq (pinnedIds : List String) (limit : ℕ)
    (pool : List GameRec) :
    ∀ merged, mergeLoop pinnedIds limit merged pool =
      merged ++ (pool.filter
        (fun g => ¬ pinnedIds.contains g.id)).take (limit - merged.length) := by
  induction pool with
  | nil => intro merged; simp [mergeLoop]
  | cons g rest ih =>
      intro merged
      by_cases hfull : limit ≤ merged.length
      · have : limit - merged.length = 0 := Nat.sub_eq_zero_of_le hfull
        simp [mergeLoop, hfull, this]
      · by_cases hpin : g.id ∈ pinnedIds
        · have hpin' : pinnedIds.contains g.id = true := by simpa using hpin
          simp [mergeLoop, hfull, hpin', hpin, ih]
        · have hpin' : ¬ pinnedIds.contains g.id = true := by simpa using hpin
          have hsub : limit - merged.length =
              (limit - (merged.length + 1)) + 1 := by omega
          simp [mergeLoop, hfull, hpin', hpin, ih, hsub, List.take_succ_cons]

/-- C4: the best-bucket merge takes the pinned docs first in curated order,
then fills the remaining slots from the algorithmic ranking skipping
pinned ids, truncated to the limit; in particular pinned `[A, B]` with
algorithmic order `[B, C, D]` and limit 3 gives `[A, B, C]`. -/
theorem mergePinnedFirst_spec :
    (∀ (pinnedDocs poolDocs : List GameRec) (limit : ℕ),
      mergePinnedFirst pinnedDocs poolDocs limit =
        (pinnedDocs ++ (poolDocs.filter
          (fun g => ¬ (pinnedDocs.map GameRec.id).contains g.id)).take
            (limit - pinnedDocs.length)).take limit) ∧
    mergePinnedFirst [mkDoc "A", mkDoc "B"] [mkDoc "B", mkDoc "C", mkDoc "D"] 3
      = [mkDoc "A", mkDoc "B", mkDoc "C"] := by
  constructor
  · intro pinnedDocs poolDocs limit
    rw [mergePinnedFirst, mergeLoop_eq]
  · decide

/-- C9: for pinned and pool lists with pairwise-distinct ids and any limit,
the merge has length at most `limit`, contains no two entries with the same
id, and draws its elements only from the two input lists. -/
theorem mergePinnedFirst_invariants (pinnedDocs poolDocs : List GameRec)
    (limit : ℕ) (hp : (pinnedDocs.map GameRec.id).Nodup)
    (hq : (poolDocs.map GameRec.id).Nodup) :
    (mergePinnedFirst pinnedDocs poolDocs limit).length ≤ limit ∧
    ((mergePinnedFirst pinnedDocs poolDocs limit).map GameRec.id).Nodup ∧
    ∀ g ∈ mergePinnedFirst pinnedDocs poolDocs limit,
      g ∈ pinnedDocs ∨ g ∈ poolDocs := by
  rw [mergePinnedFirst, mergeLoop_eq]
  set F := (poolDocs.filter
    (fun g => ¬ (pinnedDocs.map GameRec.id).contains g.id)).take
      (limit - pinnedDocs.length) with hF
  have hFfilter : List.Sublist F (poolDocs.filter
      (fun g => ¬ (pinnedDocs.map GameRec.id).contains g.id)) :=
    List.take_sublist _ _
  have hFsub : List.Sublist F poolDocs := hFfilter.trans (List.filter_sublist _)
  refine ⟨List.length_take_le _ _, ?_, ?_⟩
  · have hnodup : ((pinnedDocs ++ F).map GameRec.id).Nodup := by
      rw [List.map_append, List.nodup_append]
      refine ⟨hp, List.Nodup.sublist (hFsub.map _) hq, ?_⟩
      intro a ha haF
      rcases List.mem_map.mp haF with ⟨g, hgF, hgid⟩
      have hgfilt := hFfilter.subset hgF
      have hnot := (List.mem_filter.mp hgfilt).2
      rw [← hgid] at ha
      simp only [Bool.not_eq_true, decide_eq_true_eq] at hnot
      rw [List.contains_eq_any_beq] at hnot
      simp only [List.any_eq_false, beq_iff_eq] at hnot
      rcases List.mem_map.mp ha with ⟨p, hpmem, hpid⟩
      exact hnot p.id (by simpa [hpid] using List.mem_map_of_mem GameRec.id hpmem) hpid.symm
    exact List.Nodup.sublist ((List.take_sublist _ _).map _) hnodup
  · intro g hg
    have hg' : g ∈ pinnedDocs ++ F := List.mem_of_mem_take hg
    rcases List.mem_append.mp hg' with h | h
    · exact Or.inl h
    · exact Or.inr (hFsub.subset h)

/-- Witness for C9 at pinned `[A]`, pool `[B]`, limit 2. -/
theorem mergePinnedFirst_invariants_witness :
    (([mkDoc "A"].map GameRec.id).Nodup ∧ ([mkDoc "B"].map GameRec.id).Nodup) ∧
    ((mergePinnedFirst [mkDoc "A"] [mkDoc "B"] 2).length ≤ 2 ∧
     ((mergePinnedFirst [mkDoc "A"] [mkDoc "B"] 2).map GameRec.id).Nodup ∧
     ∀ g ∈ mergePinnedFirst [mkDoc "A"] [mkDoc "B"] 2,
       g ∈ [mkDoc "A"] ∨ g ∈ [mkDoc "B"]) :=
  ⟨⟨by decide, by decide⟩,
    mergePinnedFirst_invariants [mkDoc "A"] [mkDoc "B"] 2 (by decide) (by decide)⟩

/-- Chunk commits never touch the watermark, whether they complete or throw
part-way. -/
theorem commitChunks_watermark (env : SyncEnv) :
    ∀ (cs : List (List GameRec)) (st : Store),
      (match commitChunks env st cs with
        | .ok st' => st'.watermark
        | .error (_, st') => st'.watermark) = st.watermark := by
  intro cs
  induction cs with
  | nil => intro st; simp [commitChunks]
  | cons c rest ih =>
      intro st
      by_cases h : env.upsertOk c
      · simp only [commitChunks, h, if_true]
        exact ih _
      · simp [commitChunks, h]

/-- The page loop never touches the watermark: whatever it returns or
throws, the store's watermark is the one it started from. -/
theorem syncLoop_watermark (env : SyncEnv) (u : Option String) :
    ∀ (fuel : ℕ) (st : LoopState),
      (match syncLoop env u fuel st with
        | .ok st' => st'.store.watermark
        | .error (_, s) => s.watermark) = st.store.watermark := by
  intro fuel
  induction fuel with
  | zero => intro st; simp [syncLoop]
  | succ n ih =>
      intro st
      rw [syncLoop]
      cases hf : env.fetch st.page u with
      | error e => simp
      | ok pageData =>
          simp only
          by_cases hemp : pageData.raw.isEmpty
          · simp [hemp]
          · simp only [hemp, Bool.false_eq_true, if_false]
            have hW := commitChunks_watermark env
              (chunksOf 250 ((pageData.raw.map (normalizeGame env.norm)).filter
                (fun g => g.published))) st.store
            cases hup : upsertGamesE env
                ((pageData.raw.map (normalizeGame env.norm)).filter
                  (fun g => g.published)) st.store with
            | error p =>
                rw [upsertGamesE] at hup
                rw [hup] at hW
                cases p with
                | mk e committedStore => simp [hup, upsertGamesE] at hW ⊢; exact hW
            | ok store' =>
                rw [upsertGamesE] at hup
                rw [hup] at hW
                simp only at hW
                simp only [upsertGamesE, hup]
                by_cases hstop : (match (match pageData.lastPageMeta with
                    | some n => some n
                    | none => st.lastPage) with
                  | some lp => jsGeNat st.page lp
                  | none => decide (pageData.raw.length < PER_PAGE)) = true
                · rw [if_pos hstop]
                  simpa using hW
                · rw [if_neg hstop]
                  by_cases hmax : env.maxSyncPages < st.page + 1
                  · rw [if_pos hmax]
                    simpa using hW
                  · rw [if_neg hmax]
                    by_cases h2000 : 2000 < st.page + 1
                    · rw [if_pos h2000]
                      simpa using hW
                    · rw [if_neg h2000]
                      rw [ih]
                      simpa using hW

/-- C3: `runSync` sets the watermark to today's `YYYY-MM-DD` UTC date
exactly when it returns without an error; a thrown upstream fetch or
storage write (or rebuild) error propagates and leaves the stored
watermark unchanged. -/
theorem runSync_watermark (env : SyncEnv) (store0 : Store) :
    (runSyncE env store0).store.watermark =
      match (runSyncE env store0).result with
      | .ok _ => some (toDateStringYYYYMMDD env.todayY env.todayM env.todayD)
      | .error _ => store0.watermark := by
  unfold runSyncE
  have hW := syncLoop_watermark env (if env.fullSync then none else store0.watermark)
    2001 { page := 1, totalFetched := 0, lastSeenUpdatedAt := .jnull
           lastPage := none, fetchCount := 0, store := store0 }
  cases hloop : syncLoop env (if env.fullSync then none else store0.watermark)
      2001 { page := 1, totalFetched := 0, lastSeenUpdatedAt := .jnull
             lastPage := none, fetchCount := 0, store := store0 } with
  | error p =>
      rw [hloop] at hW
      cases p with
      | mk e s => simp [hloop]; simpa using hW
  | ok st =>
      rw [hloop] at hW
      by_cases hrb : env.rebuildCategories && !env.rebuildOk
      · simp [hloop, hrb]; simpa using hW
      · simp [hloop, hrb]

/-- When every chunk commit succeeds, `commitChunks` returns `ok`. -/
theorem commitChunks_allOk (env : SyncEnv) (h : ∀ c, env.upsertOk c = true) :
    ∀ (cs : List (List GameRec)) (st : Store),
      ∃ st', commitChunks env st cs = .ok st' := by
  intro cs
  induction cs with
  | nil => intro st; exact ⟨st, rfl⟩
  | cons c rest ih =>
      intro st
      obtain ⟨st', hst'⟩ := ih { st with games := c.foldl writeGame st.games }
      exact ⟨st', by simp [commitChunks, h c, hst']⟩

/-- A successful, full-size page with no page-count metadata and room left
under both page ceilings makes the loop continue to the next page, adding
one fetch and the page's published records to the counters. -/
theorem syncLoop_step_continue (env : SyncEnv) (u : Option String)
    (st : LoopState) (r : List RawGame) (fuel : ℕ)
    (hf : env.fetch st.page u = .ok { raw := r, lastPageMeta := none })
    (hlen : r.length = PER_PAGE)
    (hlast : st.lastPage = none)
    (hup : ∀ c, env.upsertOk c = true)
    (hmax : ¬ env.maxSyncPages < st.page + 1)
    (h2000 : ¬ 2000 < st.page + 1) :
    ∃ st'', syncLoop env u (fuel + 1) st = syncLoop env u fuel st'' ∧
      st''.page = st.page + 1 ∧ st''.lastPage = none ∧
      st''.fetchCount = st.fetchCount + 1 ∧
      st''.totalFetched = st.totalFetched + pubCount env.norm r := by
  have hemp : r.isEmpty = false := by
    cases r with
    | nil => simp [PER_PAGE] at hlen
    | cons a l => rfl
  obtain ⟨s', hs'⟩ := commitChunks_allOk env hup
    (chunksOf 250 ((r.map (normalizeGame env.norm)).filter (fun g => g.published)))
    st.store
  have hshort : decide (r.length < PER_PAGE) = false := by
    rw [hlen]; simp
  refine ⟨{ page := st.page + 1
            totalFetched := st.totalFetched +
              ((r.map (normalizeGame env.norm)).filter (fun g => g.published)).length
            lastSeenUpdatedAt :=
              lastSeenUpdate ((r.map (normalizeGame env.norm)).filter
                (fun g => g.published)) (r.map (normalizeGame env.norm))
                st.lastSeenUpdatedAt
            lastPage := none
            fetchCount := st.fetchCount + 1
            store := s' }, ?_, rfl, rfl, rfl, rfl⟩
  rw [syncLoop]
  rw [hf]
  simp only [hemp, Bool.false_eq_true, if_false, hlast, upsertGamesE, hs', hshort,
    if_neg hmax, if_neg h2000]

/-- A successful, nonempty page smaller than `PER_PAGE`, with no page-count
metadata, makes the loop break after committing the page. -/
theorem syncLoop_step_break (env : SyncEnv) (u : Option String)
    (st : LoopState) (r : List RawGame) (fuel : ℕ)
    (hf : env.fetch st.page u = .ok { raw := r, lastPageMeta := none })
    (hne : r ≠ [])
    (hshort : r.length < PER_PAGE)
    (hlast : st.lastPage = none)
    (hup : ∀ c, env.upsertOk c = true) :
    ∃ st', syncLoop env u (fuel + 1) st = .ok st' ∧
      st'.fetchCount = st.fetchCount + 1 ∧
      st'.totalFetched = st.totalFetched + pubCount env.norm r := by
  have hemp : r.isEmpty = false := by
    cases r with
    | nil => exact absurd rfl hne
    | cons a l => rfl
  obtain ⟨s', hs'⟩ := commitChunks_allOk env hup
    (chunksOf 250 ((r.map (normalizeGame env.norm)).filter (fun g => g.published)))
    st.store
  have hshort' : decide (r.length < PER_PAGE) = true := by
    simpa using hshort
  refine ⟨{ page := st.page
            totalFetched := st.totalFetched +
              ((r.map (normalizeGame env.norm)).filter (fun g => g.published)).length
            lastSeenUpdatedAt :=
              lastSeenUpdate ((r.map (normalizeGame env.norm)).filter
                (fun g => g.published)) (r.map (normalizeGame env.norm))
                st.lastSeenUpdatedAt
            lastPage := none
            fetchCount := st.fetchCount + 1
            store := s' }, ?_, rfl, rfl⟩
  rw [syncLoop]
  rw [hf]
  simp only [hemp, Bool.false_eq_true, if_false, hlast, upsertGamesE, hs', hshort',
    if_true]

/-- C2 (amended): when the page ceiling `MAX_SYNC_PAGES` is at least 3
(its default is 1), a run against an upstream serving pages of 150, 150
and 10 records with no `last_page` metadata fetches exactly three pages,
stops after the third because it is smaller than `perPage`, and returns
`totalFetched` equal to the 310 records minus those filtered out as
unpublished. -/
theorem runSync_three_pages (env : SyncEnv) (store0 : Store)
    (r1 r2 r3 : List RawGame)
    (h1 : env.fetch 1 (if env.fullSync then none else store0.watermark) =
      Except.ok { raw := r1, lastPageMeta := none })
    (h2 : env.fetch 2 (if env.fullSync then none else store0.watermark) =
      Except.ok { raw := r2, lastPageMeta := none })
    (h3 : env.fetch 3 (if env.fullSync then none else store0.watermark) =
      Except.ok { raw := r3, lastPageMeta := none })
    (hl1 : r1.length = PER_PAGE) (hl2 : r2.length = PER_PAGE)
    (hl3 : r3.length = 10)
    (hup : ∀ c, env.upsertOk c = true)
    (hrb : env.rebuildCategories = false ∨ env.rebuildOk = true)
    (hmax : 3 ≤ env.maxSyncPages) :
    ∃ res, (runSyncE env store0).result = Except.ok res ∧
      res.pagesFetched = 3 ∧
      res.totalFetched =
        pubCount env.norm r1 + pubCount env.norm r2 + pubCount env.norm r3 := by
  obtain ⟨st1, e1, hp1, hlp1, hc1, ht1⟩ :=
    syncLoop_step_continue env (if env.fullSync then none else store0.watermark)
      { page := 1, totalFetched := 0, lastSeenUpdatedAt := .jnull
        lastPage := none, fetchCount := 0, store := store0 } r1 2000
      h1 hl1 rfl hup
      (show ¬ env.maxSyncPages < 1 + 1 by omega)
      (show ¬ 2000 < 1 + 1 by omega)
  have hp1' : st1.page = 2 := by rw [hp1]
  have hf2 : env.fetch st1.page (if env.fullSync then none else store0.watermark) =
      Except.ok { raw := r2, lastPageMeta := none } := by rw [hp1']; exact h2
  have hmax2 : ¬ env.maxSyncPages < st1.page + 1 := by rw [hp1']; omega
  have h2000b : ¬ 2000 < st1.page + 1 := by rw [hp1']; omega
  obtain ⟨st2, e2, hp2, hlp2, hc2, ht2⟩ :=
    syncLoop_step_continue env (if env.fullSync then none else store0.watermark)
      st1 r2 1999 hf2 hl2 hlp1 hup hmax2 h2000b
  have hp2' : st2.page = 3 := by rw [hp2, hp1']
  have hf3 : env.fetch st2.page (if env.fullSync then none else store0.watermark) =
      Except.ok { raw := r3, lastPageMeta := none } := by rw [hp2']; exact h3
  have hne3 : r3 ≠ [] := by
    intro h
    rw [h] at hl3
    simp at hl3
  have hshort3 : r3.length < PER_PAGE := by rw [hl3, PER_PAGE]; omega
  obtain ⟨st3, e3, hc3, ht3⟩ :=
    syncLoop_step_break env (if env.fullSync then none else store0.watermark)
      st2 r3 1998 hf3 hne3 hshort3 hlp2 hup
  have hloop : syncLoop env (if env.fullSync then none else store0.watermark) 2001
      { page := 1, totalFetched := 0, lastSeenUpdatedAt := .jnull
        lastPage := none, fetchCount := 0, store := store0 } = Except.ok st3 := by
    have e1' : syncLoop env (if env.fullSync then none else store0.watermark) 2001
        { page := 1, totalFetched := 0, lastSeenUpdatedAt := .jnull
          lastPage := none, fetchCount := 0, store := store0 } =
        syncLoop env (if env.fullSync then none else store0.watermark) 2000 st1 := e1
    have e2' : syncLoop env (if env.fullSync then none else store0.watermark) 2000
        st1 = syncLoop env (if env.fullSync then none else store0.watermark) 1999
          st2 := e2
    have e3' : syncLoop env (if env.fullSync then none else store0.watermark) 1999
        st2 = Except.ok st3 := e3
    rw [e1', e2', e3']
  have hrb' : (env.rebuildCategories && !env.rebuildOk) = false := by
    rcases hrb with h | h <;> simp [h]
  dsimp only at hc1 ht1
  refine ⟨{ totalFetched := st3.totalFetched
            updatedAtUsed := (if env.fullSync then none else store0.watermark)
            lastSeenUpdatedAt := st3.lastSeenUpdatedAt
            lastPage := st3.lastPage
            pagesFetched := st3.fetchCount }, ?_, ?_, ?_⟩
  · simp only [runSyncE, hloop, hrb', Bool.false_eq_true, if_false]
  · show st3.fetchCount = 3
    omega
  · show st3.totalFetched =
      pubCount env.norm r1 + pubCount env.norm r2 + pubCount env.norm r3
    omega

set_option maxRecDepth 16000 in
/-- C2 counterexample: with the default page ceiling `MAX_SYNC_PAGES = 1`,
the 150/150/10 upstream scenario stops after the first page with
`totalFetched = 150`, not after three pages with 310. -/
theorem runSync_default_ceiling_counterexample :
    (runSyncE (envC2 1) emptyStore).result =
      Except.ok { totalFetched := 150
                  updatedAtUsed := none
                  lastSeenUpdatedAt := JSVal.jnull
                  lastPage := none
                  pagesFetched := 1 } ∧
    (1 : ℕ) ≠ 3 ∧ (150 : ℕ) ≠ 310 := by
  refine ⟨rfl, by decide, by decide⟩

set_option maxRecDepth 16000 in
/-- Witness for the amended C2 theorem at the concrete 150/150/10 upstream
with the ceiling raised to 3. -/
theorem runSync_three_pages_witness :
    3 ≤ (envC2 3).maxSyncPages ∧
    (List.replicate 150 rawPub).length = PER_PAGE ∧
    (List.replicate 10 rawPub).length = 10 ∧
    ∃ res, (runSyncE (envC2 3) emptyStore).result = Except.ok res ∧
      res.pagesFetched = 3 ∧
      res.totalFetched =
        pubCount (envC2 3).norm (List.replicate 150 rawPub) +
        pubCount (envC2 3).norm (List.replicate 150 rawPub) +
        pubCount (envC2 3).norm (List.replicate 10 rawPub) :=
  ⟨by decide, by decide, by decide,
    runSync_three_pages (envC2 3) emptyStore
      (List.replicate 150 rawPub) (List.replicate 150 rawPub)
      (List.replicate 10 rawPub)
      rfl rfl rfl rfl rfl rfl (fun _ => rfl) (Or.inl rfl) (by decide)⟩

/-- C5: after a quota-classified rebuild failure at time `t`, any request
arriving at `now < t + 60000` issues no storage read, leaves the state
unchanged, and is answered from the cached home value when one exists,
else with a 503. -/
theorem home_circuit_breaker (s : HomeState) (t now : ℕ) (err : String)
    (hq : isQuotaError err = true)
    (hwin : now < t + 60 * 1000) :
    (homeArrive (homeComplete s t (.failure err)) now).2.2 = 0 ∧
    (homeArrive (homeComplete s t (.failure err)) now).1 =
      homeComplete s t (.failure err) ∧
    (∀ ts d, s.homeCache = some (ts, d) →
      (homeArrive (homeComplete s t (.failure err)) now).2.1 = .servedFresh d ∨
      (homeArrive (homeComplete s t (.failure err)) now).2.1 =
        .servedCircuit (some d)) ∧
    (s.homeCache = none →
      (homeArrive (homeComplete s t (.failure err)) now).2.1 =
        .servedCircuit none) := by
  have hcirc : (homeComplete s t (.failure err)).homeCircuitUntil =
      t + 60 * 1000 := by
    simp [homeComplete, hq]
  have hcache : (homeComplete s t (.failure err)).homeCache = s.homeCache := rfl
  have hopen : now < (homeComplete s t (.failure err)).homeCircuitUntil := by
    rw [hcirc]; exact hwin
  refine ⟨?_, ?_, ?_, ?_⟩
  · cases hmem : s.homeCache with
    | none => simp [homeArrive, hcache, hmem, homeArriveStale, hopen]
    | some p =>
        cases p with
        | mk ts d =>
            by_cases hfresh : now - ts < HOME_CACHE_TTL_MS
            · simp [homeArrive, hcache, hmem, hfresh]
            · simp [homeArrive, hcache, hmem, hfresh, homeArriveStale, hopen]
  · cases hmem : s.homeCache with
    | none => simp [homeArrive, hcache, hmem, homeArriveStale, hopen]
    | some p =>
        cases p with
        | mk ts d =>
            by_cases hfresh : now - ts < HOME_CACHE_TTL_MS
            · simp [homeArrive, hcache, hmem, hfresh]
            · simp [homeArrive, hcache, hmem, hfresh, homeArriveStale, hopen]
  · intro ts d hmem
    by_cases hfresh : now - ts < HOME_CACHE_TTL_MS
    · left
      simp [homeArrive, hcache, hmem, hfresh]
    · right
      simp [homeArrive, hcache, hmem, hfresh, homeArriveStale, hopen]
  · intro hmem
    simp [homeArrive, hcache, hmem, homeArriveStale, hopen]

/-- Witness for C5: a quota failure at t = 1000 with an empty cache; a
request at now = 2000 is inside the window and gets the 503 outcome. -/
theorem home_circuit_breaker_witness :
    isQuotaError "Quota exceeded" = true ∧ (2000 : ℕ) < 1000 + 60 * 1000 ∧
    (homeArrive (homeComplete ⟨none, false, 0⟩ 1000
        (.failure "Quota exceeded")) 2000).2.2 = 0 ∧
    (homeArrive (homeComplete ⟨none, false, 0⟩ 1000
        (.failure "Quota exceeded")) 2000).2.1 = .servedCircuit none :=
  ⟨by decide, by decide,
    (home_circuit_breaker ⟨none, false, 0⟩ 1000 2000 "Quota exceeded"
      (by decide) (by decide)).1,
    (home_circuit_breaker ⟨none, false, 0⟩ 1000 2000 "Quota exceeded"
      (by decide) (by decide)).2.2.2 rfl⟩

/-- While a rebuild is in flight, with the cache stale and the circuit
closed, every further arrival attaches and issues no read. -/
theorem homeArrivals_attached (s : HomeState) (t0 : ℕ)
    (hin : s.homeInFlight = true)
    (hstale : ∀ ts d, s.homeCache = some (ts, d) → HOME_CACHE_TTL_MS ≤ t0 - ts)
    (hcirc : s.homeCircuitUntil ≤ t0) :
    ∀ times, (∀ t ∈ times, t0 ≤ t) →
      homeArrivals s times = (s, 0, times.length) := by
  intro times
  induction times with
  | nil => intro _; simp [homeArrivals]
  | cons t ts ih =>
      intro hall
      have ht : t0 ≤ t := hall t (List.mem_cons_self t ts)
      have hnc : ¬ t < s.homeCircuitUntil := Nat.not_lt.mpr (hcirc.trans ht)
      have hstep : homeArrive s t = (s, .attached, 0) := by
        cases hmem : s.homeCache with
        | none => simp [homeArrive, hmem, homeArriveStale, hnc, hin]
        | some p =>
            cases p with
            | mk ts' d =>
                have hst := hstale ts' d hmem
                have hnf : ¬ t - ts' < HOME_CACHE_TTL_MS := by omega
                simp [homeArrive, hmem, hnf, homeArriveStale, hnc, hin]
      have hrest := ih (fun x hx => hall x (List.mem_cons_of_mem _ hx))
      simp [homeArrivals, hstep, hrest]
      omega

/-- C6: a burst of concurrent requests arriving while the home cache is
expired or absent, the circuit closed and nothing in flight, issues exactly
one games-collection read: the first request starts the rebuild and the
other N-1 attach to it. -/
theorem home_coalescing (s : HomeState) (t0 : ℕ) (times : List ℕ)
    (hin : s.homeInFlight = false)
    (hstale : ∀ ts d, s.homeCache = some (ts, d) → HOME_CACHE_TTL_MS ≤ t0 - ts)
    (hcirc : s.homeCircuitUntil ≤ t0)
    (hall : ∀ t ∈ times, t0 ≤ t)
    (hne : times ≠ []) :
    (homeArrivals s times).2.1 = 1 ∧
    (homeArrivals s times).2.2 = times.length - 1 ∧
    (homeArrivals s times).1.homeInFlight = true := by
  cases times with
  | nil => exact absurd rfl hne
  | cons t ts =>
      have ht : t0 ≤ t := hall t (List.mem_cons_self t ts)
      have hnc : ¬ t < s.homeCircuitUntil := Nat.not_lt.mpr (hcirc.trans ht)
      have hstep : homeArrive s t =
          ({ s with homeInFlight := true }, .startedRebuild, 1) := by
        cases hmem : s.homeCache with
        | none => simp [homeArrive, hmem, homeArriveStale, hnc, hin]
        | some p =>
            cases p with
            | mk ts' d =>
                have hst := hstale ts' d hmem
                have hnf : ¬ t - ts' < HOME_CACHE_TTL_MS := by omega
                simp [homeArrive, hmem, hnf, homeArriveStale, hnc, hin]
      have hrest := homeArrivals_attached { s with homeInFlight := true } t0
        rfl (by intro ts' d h; exact hstale ts' d h) hcirc ts
        (fun x hx => hall x (List.mem_cons_of_mem _ hx))
      refine ⟨?_, ?_, ?_⟩ <;> simp [homeArrivals, hstep, hrest]

/-- Witness for C6: three concurrent requests at times 5, 5, 6 against an
empty cold cache issue one read, with two attachers. -/
theorem home_coalescing_witness :
    ((⟨none, false, 0⟩ : HomeState).homeInFlight = false ∧
      ([5, 5, 6] : List ℕ) ≠ []) ∧
    (homeArrivals ⟨none, false, 0⟩ [5, 5, 6]).2.1 = 1 ∧
    (homeArrivals ⟨none, false, 0⟩ [5, 5, 6]).2.2 = [5, 5, 6].length - 1 ∧
    (homeArrivals ⟨none, false, 0⟩ [5, 5, 6]).1.homeInFlight = true :=
  ⟨⟨rfl, by decide⟩,
    home_coalescing ⟨none, false, 0⟩ 5 [5, 5, 6] rfl
      (by intro ts d h; cases h) (by decide)
      (by intro t ht; fin_cases ht <;> decide) (by decide)⟩

/-- C10 counterexample: a fresh cache entry for an id whose stored document
no longer exists is served as a 200 from the cache, not as a 404. -/
theorem gameById_fresh_hit_counterexample :
    (getGameById (fun _ => Except.ok none)
      [("g1", 0, toClientGame (mkDoc "g1"))] 0 "g1").2 =
        GameResponse.ok (toClientGame (mkDoc "g1")) ∧
    (getGameById (fun _ => Except.ok none)
      [("g1", 0, toClientGame (mkDoc "g1"))] 0 "g1").2 ≠
        GameResponse.notFound ∧
    (fun (_ : String) => (Except.ok none : Except String (Option GameRec))) "g1"
      = Except.ok none := by
  refine ⟨by decide, by decide, rfl⟩

/-- C10 (amended): a request whose id has no stored document and no fresh
cache entry responds 404 and leaves the per-id cache unchanged; and in
general every request either leaves the cache unchanged or inserts the
payload of a game it found in storage — a missing game is never cached. -/
theorem gameById_never_caches_missing
    (store : String → Except String (Option GameRec))
    (cache : List (String × ℕ × ClientGame)) (now : ℕ) (id : String) :
    (store id = Except.ok none →
      (∀ ts d, lookupCache cache id = some (ts, d) →
        GAME_CACHE_TTL_MS ≤ now - ts) →
      (getGameById store cache now id).2 = .notFound ∧
      (getGameById store cache now id).1 = cache) ∧
    ((getGameById store cache now id).1 = cache ∨
      ∃ g, store id = Except.ok (some g) ∧
        (getGameById store cache now id).1 =
          cacheSet cache id (now, toClientGame g)) := by
  constructor
  · intro hmiss hstale
    cases hc : lookupCache cache id with
    | none => simp [getGameById, hc, gameReadPath, hmiss]
    | some p =>
        cases p with
        | mk ts d =>
            have hst := hstale ts d hc
            have hnf : ¬ now - ts < GAME_CACHE_TTL_MS := by omega
            simp [getGameById, hc, hnf, gameReadPath, hmiss]
  · cases hc : lookupCache cache id with
    | none =>
        cases hs : store id with
        | error e =>
            by_cases hq : isQuotaError e = true <;>
              simp [getGameById, hc, gameReadPath, hs, hq]
        | ok og =>
            cases og with
            | none => simp [getGameById, hc, gameReadPath, hs]
            | some g =>
                right
                exact ⟨g, rfl, by simp [getGameById, hc, gameReadPath, hs]⟩
    | some p =>
        cases p with
        | mk ts d =>
            by_cases hfresh : now - ts < GAME_CACHE_TTL_MS
            · simp [getGameById, hc, hfresh]
            · cases hs : store id with
              | error e =>
                  by_cases hq : isQuotaError e = true <;>
                    simp [getGameById, hc, hfresh, gameReadPath, hs, hq]
              | ok og =>
                  cases og with
                  | none => simp [getGameById, hc, hfresh, gameReadPath, hs]
                  | some g =>
                      right
                      exact ⟨g, rfl, by
                        simp [getGameById, hc, hfresh, gameReadPath, hs]⟩

/-- Witness for the amended C10 theorem: an empty cache and a store with no
documents give a 404 and an unchanged (still empty) cache. -/
theorem gameById_never_caches_missing_witness :
    ((fun (_ : String) => (Except.ok none : Except String (Option GameRec)))
        "g1" = Except.ok none) ∧
    (getGameById (fun _ => Except.ok none) [] 0 "g1").2 = .notFound ∧
    (getGameById (fun _ => Except.ok none) [] 0 "g1").1 = [] :=
  ⟨rfl,
    ((gameById_never_caches_missing (fun _ => Except.ok none) [] 0 "g1").1
      rfl (by intro ts d h; cases h)).1,
    ((gameById_never_caches_missing (fun _ => Except.ok none) [] 0 "g1").1
      rfl (by intro ts d h; cases h)).2⟩

/-- The `if`/`else if` chain picks exactly the first present kind in the
fixed precedence order. -/
theorem usedKind_eq_head (p : Payload) :
    usedKind p = (presentKinds p).head? := by
  unfold usedKind presentKinds
  cases h1 : optTruthy p.text <;>
    cases h2 : optTruthy p.photoFileId <;>
      cases h3 : optTruthy p.videoFileId <;>
        cases h4 : optTruthy p.videoNoteFileId <;>
          cases h5 : optTruthy p.documentFileId <;>
            cases h6 : optTruthy p.audioFileId <;>
              simp [kindPresent, h1, h2, h3, h4, h5, h6]

/-- C8: an admin chat in `waiting_for_message` receiving a non-command
message moves to `confirming` with the captured payload, and the single
media kind used is the first present one in the fixed precedence order
text, photo, video, video-note, document, audio; a message with no
supported kind aborts back to no draft state with an error reply. -/
theorem broadcast_capture (admins : List ℤ) (st : BotState) (chat : ℤ)
    (m : TgMsg)
    (hadmin : admins.contains chat = true)
    (hwait : st chat = some .waiting)
    (hnoncmd : isCommandText m.text = false) :
    (∀ k, usedKind (capturePayload m) = some k →
      (onMessage admins st chat m).1 chat =
        some (.confirming (capturePayload m)) ∧
      (onMessage admins st chat m).2 = [.echoMedia chat k, .askConfirm chat] ∧
      some k = (presentKinds (capturePayload m)).head?) ∧
    (usedKind (capturePayload m) = none →
      (onMessage admins st chat m).1 chat = none ∧
      (onMessage admins st chat m).2 = [.sendText chat
        "Unsupported message type. Please send text, photo, video, document, or audio."]) := by
  have hmem : chat ∈ admins := by simpa using hadmin
  constructor
  · intro k hk
    refine ⟨?_, ?_, ?_⟩
    · simp [onMessage, hadmin, hmem, hwait, hnoncmd, hk]
    · simp [onMessage, hadmin, hmem, hwait, hnoncmd, hk]
    · rw [← hk, usedKind_eq_head]
  · intro hk
    constructor
    · simp [onMessage, hadmin, hmem, hwait, hnoncmd, hk]
    · simp [onMessage, hadmin, hmem, hwait, hnoncmd, hk]

/-- Witness for C8: admin chat 1 in waiting state sends the text message
`"hello"`; the draft moves to confirming and the used kind is `text`. -/
theorem broadcast_capture_witness :
    (([1] : List ℤ).contains 1 = true ∧
      isCommandText (some "hello") = false) ∧
    ((onMessage [1] (fun c => if c = 1 then some .waiting else none) 1
        { text := some "hello" }).1 1 =
      some (.confirming (capturePayload { text := some "hello" })) ∧
     (onMessage [1] (fun c => if c = 1 then some .waiting else none) 1
        { text := some "hello" }).2 =
      [.echoMedia 1 .text, .askConfirm 1] ∧
     some MediaKind.text =
       (presentKinds (capturePayload { text := some "hello" })).head?) :=
  ⟨⟨by decide, by decide⟩,
    (broadcast_capture [1] (fun c => if c = 1 then some .waiting else none) 1
      { text := some "hello" } (by decide) (by simp) (by decide)).1
      MediaKind.text (by decide)⟩

